import Mathlib

/-!
# Verification of the mock-client dispatch engine

Shallow embedding of `createMockClient` (src/unnamed/part_001, compiled form
src/dist/index.js) and proofs about its behavioral contracts.

The engine state (`calls`, `responses`, `implementations`, plus the two
vitest spy histories) is modelled as an explicit record threaded through the
operations.  JS runtime values are modelled by the inductive `Value`
(sufficient for the inputs/outputs the engine manipulates), and the
async/Promise layer is flattened: an invocation returns `Except Error Value`
(a thrown error / rejected promise becomes `.error`).  `Date.now()` is an
explicit `now` parameter.  The `delay` field is kept in the descriptor but
has no effect on the pure outcome (it only suspends in the source).
-/

namespace MockClient

/-- A fragment of JS runtime values sufficient for the engine: `undefined`,
`null`, booleans, numbers, strings, and arrays of strings (the shape of a
`ProcedurePath`).  Inputs/outputs are held opaquely as such values. -/
inductive Value where
  | undef
  | nullv
  | bool (b : Bool)
  | num (n : Int)
  | str (s : String)
  | addr (segs : List String)
  deriving Repr, DecidableEq

/-- JS `a == null` test used by the `??` operator: `undefined` and `null`. -/
def Value.isNullish : Value → Bool
  | .undef => true
  | .nullv => true
  | _ => false

/-- JS nullish coalescing `a ?? b`. -/
def coalesce (a b : Value) : Value :=
  if a.isNullish then b else a

/-- A JS `Error` object (identified by its message for this development). -/
structure JsError where
  message : String
  deriving Repr, DecidableEq

/-- `MockResponse`: `output?: T`, `error?: Error`, `delay?: number`.
Reading an absent `output` field yields `undefined`, so `output` is a
`Value` defaulting to `.undef`; an absent or zero `delay` is `0` (the
source only tests its truthiness). -/
structure MockResponse where
  output : Value := .undef
  error : Option JsError := none
  delay : Nat := 0
  deriving Repr, DecidableEq

/-- `MockCallRecord`: `{ path, input, timestamp }`. -/
structure MockCallRecord where
  path : List String
  input : Value
  timestamp : Nat
  deriving Repr, DecidableEq

instance : Inhabited MockCallRecord := ⟨⟨[], .undef, 0⟩⟩

/-- Construction-time options `{ defaultResponse = {}, recordCalls = true }`,
captured as constants by the closure and never mutated afterwards. -/
structure Config where
  defaultResponse : MockResponse := {}
  recordCalls : Bool := true

/-- The mutable state captured by the `createMockClient` closure:
`calls`, the two `Map`s (modelled as association lists where `set`
prepends and `lookup` takes the first hit, i.e. the latest `set` wins),
and the vitest spy histories of the `call` and `exec` mock functions. -/
structure ClientState where
  calls : List MockCallRecord
  responses : List (String × MockResponse)
  implementations : List (String × (Value → Except JsError Value))
  callHist : List (List String × Value)
  execHist : List (Value × Value)

/-- The state immediately after construction: everything empty. -/
def initialState : ClientState :=
  { calls := [], responses := [], implementations := [], callHist := [], execHist := [] }

/-- `pathToKey = (path) => path.join(".")`. -/
def pathToKey (path : List String) : String :=
  String.intercalate "." path

/-- `Map.prototype.set`: insert or overwrite (modelled by prepending; the
most recent binding shadows older ones for `List.lookup`). -/
def mapSet {α : Type} (m : List (String × α)) (k : String) (v : α) : List (String × α) :=
  (k, v) :: m

/-- `executeCall(path, input)`: record (when enabled), then resolve
implementation > response > default; a descriptor error is thrown verbatim,
otherwise the descriptor output is returned.  Returns the updated state and
the outcome. -/
def executeCall (cfg : Config) (st : ClientState) (path : List String)
    (input : Value) (now : Nat) : ClientState × Except JsError Value :=
  let st' := if cfg.recordCalls
    then { st with calls := st.calls ++ [⟨path, input, now⟩] }
    else st
  let key := pathToKey path
  match st'.implementations.lookup key with
  | some impl => (st', impl input)
  | none =>
    let response := (st'.responses.lookup key).getD cfg.defaultResponse
    match response.error with
    | some e => (st', .error e)
    | none => (st', .ok response.output)

/-- `call = vi.fn(executeCall)`: the spy records its argument pair, then the
wrapped `executeCall` runs. -/
def call (cfg : Config) (st : ClientState) (path : List String)
    (input : Value) (now : Nat) : ClientState × Except JsError Value :=
  executeCall cfg { st with callHist := st.callHist ++ [(path, input)] } path input now

/-- Value of the `$proc` / `path` field of a reference object: reading a
missing field yields `undefined`; otherwise the field may hold `null` or a
procedure path (an array of strings). -/
inductive AddrField where
  | absent
  | nullv
  | addr (p : List String)
  deriving Repr, DecidableEq

/-- `ref.$proc ?? ref.path` at the field level (`??` skips `null`/`undefined`). -/
def coalesceAddr (a b : AddrField) : AddrField :=
  match a with
  | .absent => b
  | .nullv => b
  | .addr p => .addr p

/-- The first argument of `exec`, classified the way the source probes it:
`Array.isArray(refOrPath)` → `arr`; `typeof refOrPath === "object" &&
refOrPath !== null` → `obj` with its `$proc`, `path` and `input` fields
(reading a missing `input` field yields `.undef`); everything else
(numbers, strings, booleans, `null`, `undefined`) → `prim`. -/
inductive ExecArg where
  | arr (segs : List String)
  | obj (proc pathF : AddrField) (inputF : Value)
  | prim (v : Value)

/-- A `Value` summary of an `ExecArg`, used only for the spy history. -/
def ExecArg.summary : ExecArg → Value
  | .arr segs => .addr segs
  | .obj _ _ _ => .undef
  | .prim v => v

/-- The error thrown by `exec` on a malformed reference. -/
def invalidRefError : JsError := ⟨"Invalid procedure reference"⟩

/-- `exec = vi.fn(async (refOrPath, input?) => ...)`: spy history first, then
shape dispatch; an array delegates directly, an object with a usable
`$proc ?? path` delegates with `ref.input ?? input`, anything else throws
`Error("Invalid procedure reference")`. -/
def execMock (cfg : Config) (st : ClientState) (arg : ExecArg)
    (input : Value) (now : Nat) : ClientState × Except JsError Value :=
  let st' := { st with execHist := st.execHist ++ [(arg.summary, input)] }
  match arg with
  | .arr segs => executeCall cfg st' segs input now
  | .obj proc pathF inputF =>
    match coalesceAddr proc pathF with
    | .addr p => executeCall cfg st' p (coalesce inputF input) now
    | _ => (st', .error invalidRefError)
  | .prim _ => (st', .error invalidRefError)

/-- `getCalls: () => [...calls]` (the pure content of the snapshot; the
reference-semantics aspect of the spread copy is modelled separately by the
heap model below). -/
def getCalls (st : ClientState) : List MockCallRecord :=
  st.calls

/-- `getCallsFor: (path) => calls.filter(c => pathToKey(c.path) === pathToKey(path))`. -/
def getCallsFor (st : ClientState) (path : List String) : List MockCallRecord :=
  st.calls.filter (fun c => pathToKey c.path == pathToKey path)

/-- `clearCalls: () => { calls.length = 0 }`. -/
def clearCalls (st : ClientState) : ClientState :=
  { st with calls := [] }

/-- `mockResponse: (path, response) => responses.set(pathToKey(path), response)`. -/
def mockResponse (st : ClientState) (path : List String) (r : MockResponse) : ClientState :=
  { st with responses := mapSet st.responses (pathToKey path) r }

/-- `mockImplementation: (path, impl) => implementations.set(pathToKey(path), impl)`. -/
def mockImplementation (st : ClientState) (path : List String)
    (f : Value → Except JsError Value) : ClientState :=
  { st with implementations := mapSet st.implementations (pathToKey path) f }

/-- `reset: () => { calls.length = 0; responses.clear(); implementations.clear();
callMock.mockClear(); execMock.mockClear(); }`. -/
def reset (_st : ClientState) : ClientState :=
  initialState

/-! ## Helper lemmas: the key encoding, map lookups, outcome resolution -/

/-- Two strings with the same character data are equal. -/
theorem string_data_inj (a b : String) (h : a.data = b.data) : a = b := by
  cases a; cases b; exact congrArg String.mk h

/-- Character data of `String.intercalate.go`, the accumulator loop. -/
theorem intercalateGo_data (s : String) (as : List String) : ∀ acc : String,
    (String.intercalate.go acc s as).data
      = acc.data ++ (as.map (fun a => s.data ++ a.data)).flatten := by
  induction as with
  | nil => intro acc; simp [String.intercalate.go]
  | cons a as ih =>
    intro acc
    simp [String.intercalate.go, ih, String.data_append]

/-- `List.intercalate` on a cons, unfolded to a flatten of separated tails. -/
theorem intercalate_cons_eq {α : Type} (sep x : List α) (xs : List (List α)) :
    List.intercalate sep (x :: xs) = x ++ (xs.map (fun y => sep ++ y)).flatten := by
  induction xs generalizing x with
  | nil => simp [List.intercalate, List.intersperse]
  | cons y ys ih =>
    simp only [List.intercalate, List.intersperse] at *
    simp [ih y, List.append_assoc]

/-- `String.intercalate` agrees with `List.intercalate` on character data. -/
theorem data_intercalate (s : String) (l : List String) :
    (String.intercalate s l).data = List.intercalate s.data (l.map String.data) := by
  cases l with
  | nil => rfl
  | cons a as =>
    simp only [String.intercalate, intercalateGo_data, List.map_cons,
      intercalate_cons_eq, List.map_map]
    rfl

/-- `pathToKey` is injective on nonempty paths whose segments avoid the
separator `'.'`. -/
theorem pathToKey_inj (A B : List String) (hA : A ≠ []) (hB : B ≠ [])
    (hdA : ∀ s ∈ A, '.' ∉ s.data) (hdB : ∀ s ∈ B, '.' ∉ s.data)
    (h : pathToKey A = pathToKey B) : A = B := by
  have hdeq : List.intercalate ['.'] (A.map String.data)
      = List.intercalate ['.'] (B.map String.data) := by
    have h2 := congrArg String.data h
    simp only [pathToKey, data_intercalate] at h2
    exact h2
  have hxA : ∀ l ∈ A.map String.data, '.' ∉ l := by
    intro l hl
    rcases List.mem_map.mp hl with ⟨s, hs, rfl⟩
    exact hdA s hs
  have hxB : ∀ l ∈ B.map String.data, '.' ∉ l := by
    intro l hl
    rcases List.mem_map.mp hl with ⟨s, hs, rfl⟩
    exact hdB s hs
  have hsA := List.splitOn_intercalate (A.map String.data) '.' hxA (by simpa using hA)
  have hsB := List.splitOn_intercalate (B.map String.data) '.' hxB (by simpa using hB)
  have hmap : A.map String.data = B.map String.data := by
    rw [← hsA, ← hsB, hdeq]
  exact List.map_injective_iff.mpr (fun a b hab => string_data_inj a b hab) hmap

/-- The behavior an invocation resolves to, as a function of the registry
only (implementation > registered response > default response). -/
def resolveOutcome (cfg : Config) (st : ClientState) (path : List String)
    (input : Value) : Except JsError Value :=
  match st.implementations.lookup (pathToKey path) with
  | some impl => impl input
  | none =>
    let response := (st.responses.lookup (pathToKey path)).getD cfg.defaultResponse
    match response.error with
    | some e => (.error e)
    | none => (.ok response.output)

/-- The outcome of `executeCall` is `resolveOutcome`: recording touches only
the call log, never the resolved behavior. -/
theorem executeCall_snd (cfg : Config) (st : ClientState) (path : List String)
    (input : Value) (now : Nat) :
    (executeCall cfg st path input now).2 = resolveOutcome cfg st path input := by
  by_cases h : cfg.recordCalls <;>
    cases hl : List.lookup (pathToKey path) st.implementations <;>
    cases hr : ((st.responses.lookup (pathToKey path)).getD cfg.defaultResponse).error <;>
    simp [executeCall, resolveOutcome, h, hl, hr]

/-- The call log produced by `executeCall`: appended iff recording is on. -/
theorem executeCall_fst_calls (cfg : Config) (st : ClientState) (path : List String)
    (input : Value) (now : Nat) :
    (executeCall cfg st path input now).1.calls
      = if cfg.recordCalls then st.calls ++ [⟨path, input, now⟩] else st.calls := by
  by_cases h : cfg.recordCalls <;>
    simp only [executeCall, h, if_true, if_false] <;>
    cases hl : List.lookup (pathToKey path) st.implementations <;>
    simp [hl] <;>
    cases hr : ((st.responses.lookup (pathToKey path)).getD cfg.defaultResponse).error <;>
    simp [hr]

/-- `Map.set` then `Map.get` at the same key yields the new value. -/
theorem lookup_mapSet_self {α : Type} (m : List (String × α)) (k : String) (v : α) :
    (mapSet m k v).lookup k = some v := by
  simp [mapSet, List.lookup]

/-- `Map.set` then `Map.get` at a different key is unaffected. -/
theorem lookup_mapSet_ne {α : Type} (m : List (String × α)) (k k' : String) (v : α)
    (h : k' ≠ k) : (mapSet m k v).lookup k' = m.lookup k' := by
  have hb : (k' == k) = false := beq_eq_false_iff_ne.mpr h
  simp [mapSet, List.lookup, hb]

/-- Registering (response or implementation) under a key different from the
invoked path's key never changes the invocation's outcome. -/
theorem resolveOutcome_register_ne (cfg : Config) (st : ClientState)
    (A B : List String) (r : MockResponse) (f : Value → Except JsError Value)
    (input : Value) (hk : pathToKey B ≠ pathToKey A) :
    resolveOutcome cfg (mockResponse st A r) B input = resolveOutcome cfg st B input
      ∧ resolveOutcome cfg (mockImplementation st A f) B input
        = resolveOutcome cfg st B input := by
  constructor <;>
    simp [resolveOutcome, mockResponse, mockImplementation, lookup_mapSet_ne _ _ _ _ hk]

/-! ## C1: collision-freedom of the registry key encoding -/

/-- C1 (counterexample): the key encoding `path.join(".")` is not
collision-free.  The distinct addresses `["a.b"]` and `["a","b"]` share the
key `"a.b"`, so registering a response for the first changes what an
invocation of the second resolves to; likewise `[]` and `[""]` share the
key `""`. -/
theorem c1_counterexample :
    (["a.b"] : List String) ≠ ["a", "b"]
      ∧ pathToKey ["a.b"] = pathToKey ["a", "b"]
      ∧ (executeCall {} (mockResponse initialState ["a.b"] { output := .str "X" })
          ["a", "b"] .undef 0).2 = .ok (.str "X")
      ∧ (executeCall {} initialState ["a", "b"] .undef 0).2 = .ok .undef
      ∧ ([] : List String) ≠ [""]
      ∧ pathToKey [] = pathToKey [""] := by
  refine ⟨by decide, by decide, ?_, ?_, by decide, by decide⟩ <;> rfl

/-- C1 (amended): for nonempty addresses whose segments do not contain the
separator `'.'`, the encoding is collision-free: distinct segment sequences
get distinct keys, and registering a Response Descriptor or an
Implementation Binding for `A` never affects the behavior resolved for an
invocation of `B`. -/
theorem c1_collision_free_amended (A B : List String) (hA : A ≠ []) (hB : B ≠ [])
    (hdA : ∀ s ∈ A, '.' ∉ s.data) (hdB : ∀ s ∈ B, '.' ∉ s.data) (hne : A ≠ B) :
    pathToKey A ≠ pathToKey B
      ∧ (∀ (cfg : Config) (st : ClientState) (r : MockResponse) (input : Value) (now : Nat),
          (executeCall cfg (mockResponse st A r) B input now).2
            = (executeCall cfg st B input now).2)
      ∧ (∀ (cfg : Config) (st : ClientState) (f : Value → Except JsError Value)
            (input : Value) (now : Nat),
          (executeCall cfg (mockImplementation st A f) B input now).2
            = (executeCall cfg st B input now).2) := by
  have hk : pathToKey A ≠ pathToKey B := fun hcontra =>
    hne (pathToKey_inj A B hA hB hdA hdB hcontra)
  refine ⟨hk, ?_, ?_⟩
  · intro cfg st r input now
    rw [executeCall_snd, executeCall_snd]
    exact (resolveOutcome_register_ne cfg st A B r (fun v => .ok v) input
      (fun hc => hk hc.symm)).1
  · intro cfg st f input now
    rw [executeCall_snd, executeCall_snd]
    exact (resolveOutcome_register_ne cfg st A B {} f input (fun hc => hk hc.symm)).2

/-- C1 (witness): the amended theorem applied at `A = ["a"]`, `B = ["b"]`. -/
theorem c1_witness :
    pathToKey ["a"] ≠ pathToKey ["b"]
      ∧ (executeCall {} (mockResponse initialState ["a"] { output := .num 1 })
          ["b"] .undef 0).2 = (executeCall {} initialState ["b"] .undef 0).2 := by
  have h := c1_collision_free_amended ["a"] ["b"] (by decide) (by decide)
    (by decide) (by decide) (by decide)
  exact ⟨h.1, h.2.1 {} initialState { output := .num 1 } .undef 0⟩

/-! ## C2: getCallsFor selects by full ordered-segment equality -/

/-- C2 (counterexample): a record logged for `["a.b"]` is returned by
`getCallsFor ["a","b"]` although its path is a different segment sequence
(key comparison, not segment-sequence comparison). -/
theorem c2_counterexample :
    getCallsFor (executeCall {} initialState ["a.b"] .undef 0).1 ["a", "b"]
        = [⟨["a.b"], .undef, 0⟩]
      ∧ (["a.b"] : List String) ≠ ["a", "b"] := by
  exact ⟨rfl, by decide⟩

/-- C2 (amended): when the queried address and all logged paths are nonempty
with `'.'`-free segments, `getCallsFor A` is exactly the order-preserving
subsequence of `getCalls` whose records' paths equal `A` segment-wise. -/
theorem c2_getCallsFor_amended (st : ClientState) (A : List String) (hA : A ≠ [])
    (hdA : ∀ s ∈ A, '.' ∉ s.data)
    (hrec : ∀ c ∈ st.calls, c.path ≠ [] ∧ ∀ s ∈ c.path, '.' ∉ s.data) :
    getCallsFor st A = (getCalls st).filter (fun c => c.path == A)
      ∧ (getCallsFor st A).Sublist (getCalls st) := by
  constructor
  · apply List.filter_congr
    intro c hc
    rcases hrec c hc with ⟨hne, hdc⟩
    by_cases hp : c.path = A
    · simp [hp]
    · have hk : pathToKey c.path ≠ pathToKey A := fun hcontra =>
        hp (pathToKey_inj c.path A hne hA hdc hdA hcontra)
      simp [hp, beq_eq_false_iff_ne.mpr hk, beq_eq_false_iff_ne.mpr hp]
  · exact List.filter_sublist st.calls

/-- C2 (witness): a concrete two-record log where only the exact-path record
is selected. -/
theorem c2_witness :
    getCallsFor { initialState with
        calls := [⟨["a"], .num 1, 0⟩, ⟨["b"], .num 2, 1⟩] } ["a"]
      = [⟨["a"], .num 1, 0⟩] := by
  have h := c2_getCallsFor_amended
    { initialState with calls := [⟨["a"], .num 1, 0⟩, ⟨["b"], .num 2, 1⟩] }
    ["a"] (by decide) (by decide) (by decide)
  rw [h.1]
  rfl

/-- The outcome of the spied `call` entry point is also `resolveOutcome`:
the spy history update never changes resolution. -/
theorem call_snd (cfg : Config) (st : ClientState) (path : List String)
    (input : Value) (now : Nat) :
    (call cfg st path input now).2 = resolveOutcome cfg st path input := by
  simp only [call, executeCall_snd]
  rfl

/-- The call log produced by the spied `call` entry point. -/
theorem call_fst_calls (cfg : Config) (st : ClientState) (path : List String)
    (input : Value) (now : Nat) :
    (call cfg st path input now).1.calls
      = if cfg.recordCalls then st.calls ++ [⟨path, input, now⟩] else st.calls := by
  simp only [call, executeCall_fst_calls]

/-! ## C3: implementation bindings shadow response descriptors -/

/-- C3 (confirmed): with both an Implementation Binding and a Response
Descriptor registered for `A` (in either registration order), invoking `A`
uses the binding and ignores the descriptor; after `reset` removes the
binding, re-registering only the descriptor and invoking resolves through
the descriptor. -/
theorem c3_implementation_precedence (cfg : Config) (st : ClientState)
    (A : List String) (f : Value → Except JsError Value) (r : MockResponse)
    (input input' : Value) (now now' : Nat) :
    (call cfg (mockResponse (mockImplementation st A f) A r) A input now).2 = f input
      ∧ (call cfg (mockImplementation (mockResponse st A r) A f) A input now).2 = f input
      ∧ (call cfg (mockResponse (reset (mockResponse (mockImplementation st A f) A r)) A r)
            A input' now').2
          = (match r.error with | some e => .error e | none => .ok r.output) := by
  refine ⟨?_, ?_, ?_⟩ <;> rw [call_snd]
  · simp [resolveOutcome, mockResponse, mockImplementation, lookup_mapSet_self]
  · simp [resolveOutcome, mockResponse, mockImplementation, lookup_mapSet_self]
  · simp only [resolveOutcome, mockResponse, reset, initialState, lookup_mapSet_self]
    cases hre : r.error <;> simp [hre, List.lookup, mapSet]

/-! ## C4: a descriptor error always wins over its output -/

/-- C4 (confirmed): a Response Descriptor carrying both an output and an
error fails with exactly that error on invocation (given no Implementation
Binding shadows it), for every input; the output is never returned. -/
theorem c4_error_wins (cfg : Config) (st : ClientState) (A : List String)
    (v : Value) (e : JsError) (d : Nat) (input : Value) (now : Nat)
    (himpl : st.implementations.lookup (pathToKey A) = none) :
    (call cfg (mockResponse st A { output := v, error := some e, delay := d })
        A input now).2 = .error e := by
  rw [call_snd]
  simp [resolveOutcome, mockResponse, lookup_mapSet_self, himpl]

/-- C4 (witness): concrete descriptor with output `"out"` and error
`"boom"`; invocation fails with `"boom"`. -/
theorem c4_witness :
    (call {} (mockResponse initialState ["p"]
        { output := .str "out", error := some ⟨"boom"⟩, delay := 5 })
      ["p"] .undef 0).2 = .error ⟨"boom"⟩ :=
  c4_error_wins {} initialState ["p"] (.str "out") ⟨"boom"⟩ 5 .undef 0 rfl

/-! ## C5: precedence of the embedded input on reference objects -/

/-- C5 (counterexample): with an echo implementation at `["e"]`, a reference
object carrying `input: null` delegates the *separately supplied* argument
`5`, not the embedded `null` — `ref.input ?? input` skips a present but
nullish embedded input, contradicting precedence "for every value of the
embedded input (including null or undefined)". -/
theorem c5_counterexample :
    (execMock {} (mockImplementation initialState ["e"] (fun v => .ok v))
        (.obj (.addr ["e"]) .absent .nullv) (.num 5) 0).2 = .ok (.num 5)
      ∧ Value.num 5 ≠ .nullv
      ∧ Value.isNullish .nullv = true := by
  exact ⟨rfl, by decide, rfl⟩

/-- C5 (amended): a reference object whose extracted address is `p`
delegates with the embedded input only when that input is non-nullish;
a nullish embedded input falls back to the separately supplied argument.
Both the resolved outcome and the recorded Call Record use the delegated
input. -/
theorem c5_embedded_input_amended (cfg : Config) (st : ClientState)
    (proc pathF : AddrField) (p : List String) (inputF input : Value) (now : Nat)
    (hp : coalesceAddr proc pathF = .addr p) :
    (execMock cfg st (.obj proc pathF inputF) input now).2
        = resolveOutcome cfg st p (if inputF.isNullish then input else inputF)
      ∧ (cfg.recordCalls = true →
          (execMock cfg st (.obj proc pathF inputF) input now).1.calls
            = st.calls ++ [⟨p, if inputF.isNullish then input else inputF, now⟩]) := by
  constructor
  · simp only [execMock, hp, executeCall_snd, coalesce]
    rfl
  · intro hrec
    simp only [execMock, hp, executeCall_fst_calls, hrec, if_true, coalesce]

/-- C5 (witness): the amended theorem at a concrete reference object with a
non-nullish embedded input. -/
theorem c5_witness :
    (execMock {} initialState (.obj (.addr ["e"]) .absent (.num 9)) (.num 5) 0).2
        = resolveOutcome {} initialState ["e"]
            (if (Value.num 9).isNullish then .num 5 else .num 9) :=
  (c5_embedded_input_amended {} initialState (.addr ["e"]) .absent ["e"]
    (.num 9) (.num 5) 0 rfl).1

/-! ## C6: unconditional recording before resolution -/

/-- C6 (confirmed): with recording enabled, an invocation through `call`
appends exactly one Call Record `(address, input, now)` to the log, for
every registry state — in particular also when resolution then fails. -/
theorem c6_unconditional_recording (cfg : Config) (hrec : cfg.recordCalls = true)
    (st : ClientState) (A : List String) (input : Value) (now : Nat) :
    (call cfg st A input now).1.calls = st.calls ++ [⟨A, input, now⟩] := by
  simp [call_fst_calls, hrec]

/-- C6 (witness): a failing invocation (registered error descriptor) still
appends its Call Record. -/
theorem c6_witness :
    (call { recordCalls := true }
        (mockResponse initialState ["f"] { error := some ⟨"E"⟩ })
        ["f"] (.num 7) 3).1.calls = [⟨["f"], .num 7, 3⟩]
      ∧ (call { recordCalls := true }
          (mockResponse initialState ["f"] { error := some ⟨"E"⟩ })
          ["f"] (.num 7) 3).2 = .error ⟨"E"⟩ := by
  constructor
  · have h := c6_unconditional_recording { recordCalls := true } rfl
      (mockResponse initialState ["f"] { error := some ⟨"E"⟩ }) ["f"] (.num 7) 3
    simpa using h
  · rfl

/-! ## C7: malformed procedure references fail without recording -/

/-- C7 (confirmed): an argument that is neither an address array nor an
object exposing a usable `$proc`/`path` field makes `exec` fail with the
engine-raised `"Invalid procedure reference"` error, and the Call Log is
unchanged. -/
theorem c7_malformed_reference (cfg : Config) (st : ClientState)
    (input : Value) (now : Nat) :
    (∀ v : Value,
        (execMock cfg st (.prim v) input now).2 = .error invalidRefError
          ∧ (execMock cfg st (.prim v) input now).1.calls = st.calls)
      ∧ (∀ (proc pathF : AddrField) (inputF : Value),
          (∀ p, coalesceAddr proc pathF ≠ .addr p) →
            (execMock cfg st (.obj proc pathF inputF) input now).2 = .error invalidRefError
              ∧ (execMock cfg st (.obj proc pathF inputF) input now).1.calls = st.calls) := by
  constructor
  · intro v
    exact ⟨rfl, rfl⟩
  · intro proc pathF inputF h
    cases hc : coalesceAddr proc pathF with
    | absent => simp [execMock, hc]
    | nullv => simp [execMock, hc]
    | addr p => exact absurd hc (h p)

/-- C7 (witness): `exec 42` fails with the malformed-reference error and
appends no Call Record. -/
theorem c7_witness :
    (execMock {} initialState (.prim (.num 42)) .undef 0).2 = .error invalidRefError
      ∧ (execMock {} initialState (.prim (.num 42)) .undef 0).1.calls
          = initialState.calls :=
  (c7_malformed_reference {} initialState .undef 0).1 (.num 42)

/-! ## C8: reset returns to the post-construction state, default preserved -/

/-- C8 (confirmed): `reset` yields exactly the state immediately after
construction — empty log, both registries empty, both spy histories empty —
while the construction-time Default Response Descriptor (held in the
immutable configuration) survives: an unregistered invocation after `reset`
returns the default's output. -/
theorem c8_reset (cfg : Config) (st : ClientState) (A : List String)
    (input : Value) (now : Nat) (hdef : cfg.defaultResponse.error = none) :
    reset st = initialState
      ∧ (call cfg (reset st) A input now).2 = .ok cfg.defaultResponse.output := by
  refine ⟨rfl, ?_⟩
  rw [call_snd]
  simp [resolveOutcome, reset, initialState, List.lookup, hdef]

/-- C8 (witness): an engine constructed with default output `"d"`, after
arbitrary registrations and calls, resets to pristine and still answers
`"d"` for an unregistered address. -/
theorem c8_witness :
    reset (call { defaultResponse := { output := .str "d" } }
        (mockResponse initialState ["x"] { output := .num 1 }) ["x"] .undef 0).1
      = initialState
      ∧ (call { defaultResponse := { output := .str "d" } }
          (reset (call { defaultResponse := { output := .str "d" } }
            (mockResponse initialState ["x"] { output := .num 1 }) ["x"] .undef 0).1)
          ["q"] .undef 1).2 = .ok (.str "d") :=
  c8_reset { defaultResponse := { output := .str "d" } }
    (call { defaultResponse := { output := .str "d" } }
      (mockResponse initialState ["x"] { output := .num 1 }) ["x"] .undef 0).1
    ["q"] .undef 1 rfl

/-! ## C9: reference semantics of the `getCalls` snapshot

`getCalls: () => [...calls]` copies the *array*, not the records: the
returned array is freshly allocated but its elements are the very record
objects held by the live log.  To state this, records and arrays are given
explicit references (indices into two heaps) and mutation is a heap write. -/

/-- Heap of the objects relevant to the snapshot question: call-record
objects and arrays of record references, each addressed by its index;
`liveCalls` is the reference of the engine's private `calls` array. -/
structure SnapshotHeap where
  recs : List MockCallRecord
  arrs : List (List Nat)
  liveCalls : Nat
  deriving Repr, DecidableEq

/-- Dereference an array. -/
def readArr (h : SnapshotHeap) (r : Nat) : List Nat :=
  h.arrs.getD r []

/-- `getCalls()` under reference semantics: allocate a fresh array holding
the same record references as the live `calls` array (`[...calls]`), and
hand its reference to the caller. -/
def getCallsAlloc (h : SnapshotHeap) : SnapshotHeap × Nat :=
  ({ h with arrs := h.arrs ++ [readArr h h.liveCalls] }, h.arrs.length)

/-- A caller mutates an array it holds a reference to. -/
def writeArr (h : SnapshotHeap) (r : Nat) (v : List Nat) : SnapshotHeap :=
  { h with arrs := h.arrs.set r v }

/-- A caller mutates a record object it holds a reference to. -/
def writeRec (h : SnapshotHeap) (r : Nat) (c : MockCallRecord) : SnapshotHeap :=
  { h with recs := h.recs.set r c }

/-- The live Call Log as the engine sees it: the records referenced by the
live `calls` array. -/
def viewCalls (h : SnapshotHeap) : List MockCallRecord :=
  (readArr h h.liveCalls).map (fun r => h.recs.getD r default)

/-- C9 (counterexample): the snapshot shares its records with the live log.
From a one-record log, `getCalls` hands out record reference `0`; writing a
new timestamp through that reference changes what the live log contains,
so the returned value is not independent of caller mutation. -/
theorem c9_counterexample :
    (readArr (getCallsAlloc ⟨[⟨["a"], .undef, 0⟩], [[0]], 0⟩).1
        (getCallsAlloc ⟨[⟨["a"], .undef, 0⟩], [[0]], 0⟩).2 = [0])
      ∧ viewCalls (writeRec (getCallsAlloc ⟨[⟨["a"], .undef, 0⟩], [[0]], 0⟩).1 0
          ⟨["a"], .undef, 99⟩)
          ≠ viewCalls (getCallsAlloc ⟨[⟨["a"], .undef, 0⟩], [[0]], 0⟩).1 := by
  decide

/-- C9 (amended): the snapshot array itself is fresh: it has the same
contents as the live array but a distinct reference, so *array-level*
mutation of the returned value never changes the live Call Log.  (Record
objects, by the counterexample, remain shared.) -/
theorem c9_snapshot_amended (h : SnapshotHeap) (hwf : h.liveCalls < h.arrs.length)
    (v : List Nat) :
    readArr (getCallsAlloc h).1 (getCallsAlloc h).2 = readArr h h.liveCalls
      ∧ (getCallsAlloc h).2 ≠ h.liveCalls
      ∧ viewCalls (writeArr (getCallsAlloc h).1 (getCallsAlloc h).2 v)
          = viewCalls (getCallsAlloc h).1 := by
  refine ⟨?_, ?_, ?_⟩
  · simp [getCallsAlloc, readArr, List.getD_eq_getElem?_getD, List.getElem?_concat_length]
  · exact Nat.ne_of_gt hwf
  · have hlt : h.liveCalls < (h.arrs ++ [readArr h h.liveCalls]).length := by
      simp only [List.length_append, List.length_cons, List.length_nil]
      omega
    simp only [viewCalls, writeArr, getCallsAlloc, readArr,
      List.getD_eq_getElem?_getD]
    rw [List.getElem?_set_ne (Nat.ne_of_gt hwf)]

/-- C9 (witness): the amended theorem at a concrete two-array heap. -/
theorem c9_witness :
    readArr (getCallsAlloc ⟨[⟨["a"], .undef, 0⟩], [[0]], 0⟩).1
        (getCallsAlloc ⟨[⟨["a"], .undef, 0⟩], [[0]], 0⟩).2
      = readArr ⟨[⟨["a"], .undef, 0⟩], [[0]], 0⟩ 0
      ∧ (getCallsAlloc ⟨[⟨["a"], .undef, 0⟩], [[0]], 0⟩).2 ≠ 0
      ∧ viewCalls (writeArr (getCallsAlloc ⟨[⟨["a"], .undef, 0⟩], [[0]], 0⟩).1
            (getCallsAlloc ⟨[⟨["a"], .undef, 0⟩], [[0]], 0⟩).2 [])
          = viewCalls (getCallsAlloc ⟨[⟨["a"], .undef, 0⟩], [[0]], 0⟩).1 :=
  c9_snapshot_amended ⟨[⟨["a"], .undef, 0⟩], [[0]], 0⟩ (by decide) []

/-! ## C10: the recordCalls flag only governs the log -/

/-- One client-facing operation of the engine's API surface. -/
inductive Op where
  | call (path : List String) (input : Value) (now : Nat)
  | exec (arg : ExecArg) (input : Value) (now : Nat)
  | mockResponse (path : List String) (r : MockResponse)
  | mockImplementation (path : List String) (f : Value → Except JsError Value)
  | clearCalls
  | reset

/-- State transition of one operation (outcomes discarded). -/
def step (cfg : Config) (st : ClientState) : Op → ClientState
  | .call p i n => (call cfg st p i n).1
  | .exec a i n => (execMock cfg st a i n).1
  | .mockResponse p r => mockResponse st p r
  | .mockImplementation p f => mockImplementation st p f
  | .clearCalls => clearCalls st
  | .reset => reset st

/-- Run a sequence of operations from a state. -/
def run (cfg : Config) (st : ClientState) : List Op → ClientState
  | [] => st
  | op :: ops => run cfg (step cfg st op) ops

/-- With recording off, no operation ever adds to the call log. -/
theorem step_calls_empty (cfg : Config) (hF : cfg.recordCalls = false)
    (st : ClientState) (h : st.calls = []) (op : Op) :
    (step cfg st op).calls = [] := by
  cases op with
  | call p i n => simp [step, call_fst_calls, hF, h]
  | exec a i n =>
    cases a with
    | arr segs => simp [step, execMock, executeCall_fst_calls, hF, h]
    | obj proc pathF inputF =>
      cases hc : coalesceAddr proc pathF <;>
        simp [step, execMock, hc, executeCall_fst_calls, hF, h]
    | prim v => simp [step, execMock, h]
  | mockResponse p r => simpa [step, mockResponse] using h
  | mockImplementation p f => simpa [step, mockImplementation] using h
  | clearCalls => simp [step, clearCalls]
  | reset => simp [step, reset, initialState]

/-- With recording off, the log stays empty along any run. -/
theorem run_calls_empty (cfg : Config) (hF : cfg.recordCalls = false)
    (ops : List Op) : ∀ st : ClientState, st.calls = [] → (run cfg st ops).calls = [] := by
  induction ops with
  | nil => intro st h; exact h
  | cons op ops ih =>
    intro st h
    exact ih (step cfg st op) (step_calls_empty cfg hF st h op)

/-- C10 (confirmed): the `recordCalls` construction flag does not interfere
with invocation outcomes — for every registry state, address and input, the
outcome of `call` is the same under a recording and a non-recording
configuration sharing the same default response — and with recording off
the Call Log is empty after every operation sequence from construction. -/
theorem c10_record_flag_noninterference (cfgT cfgF : Config) (st : ClientState)
    (A : List String) (input : Value) (now : Nat) (ops : List Op)
    (hd : cfgT.defaultResponse = cfgF.defaultResponse)
    (hF : cfgF.recordCalls = false) :
    (call cfgT st A input now).2 = (call cfgF st A input now).2
      ∧ getCalls (run cfgF initialState ops) = [] := by
  constructor
  · rw [call_snd, call_snd]
    simp [resolveOutcome, hd]
  · exact run_calls_empty cfgF hF ops initialState rfl

/-- C10 (witness): a registered-response invocation yields the same outcome
with recording on and off, and a concrete run with recording off leaves an
empty log. -/
theorem c10_witness :
    (call { recordCalls := true } (mockResponse initialState ["a"] { output := .num 3 })
        ["a"] .undef 0).2
      = (call { recordCalls := false } (mockResponse initialState ["a"] { output := .num 3 })
          ["a"] .undef 0).2
      ∧ getCalls (run { recordCalls := false } initialState
          [.call ["a"] .undef 0, .mockResponse ["b"] { output := .num 1 },
            .call ["b"] (.num 2) 1, .clearCalls, .call ["b"] .undef 2]) = [] :=
  c10_record_flag_noninterference { recordCalls := true } { recordCalls := false }
    (mockResponse initialState ["a"] { output := .num 3 }) ["a"] .undef 0
    [.call ["a"] .undef 0, .mockResponse ["b"] { output := .num 1 },
      .call ["b"] (.num 2) 1, .clearCalls, .call ["b"] .undef 2] rfl rfl

end MockClient
